import Mathlib

/-!
Verification of the amazonComment review pipeline.

Shallow embedding of the Python sources:
  src/data_processing.py   (clean_text, analyze_sentiment_simple,
                            label_sentiment, process_review)
  src/generate_response.py (generate_fallback_response, generate_ai_response,
                            generer_reponse)
  src/main.py              (analyser_avis endpoint logic)
  src/config/settings.py   (TextProcessingConfig, ResponseTemplates)

Strings are modelled as Lean `String` / `List Char`, one `Char` per Python
code point.  The model covers the character ranges the pipeline manipulates:
`str.lower` is modelled on ASCII and the Latin-1 letter block (identity
elsewhere), and Python whitespace is modelled as the ASCII whitespace
characters; all concrete inputs used below stay inside these ranges.
External effects (the generative model, `random.choice`) are modelled as
explicit parameters.
-/

/-- Python whitespace (`str.strip` / `str.split` / regex `\s`),
restricted to the ASCII range: space, tab, LF, VT, FF, CR. -/
def isPySpace (c : Char) : Bool :=
  decide (c.toNat = 32 ∨ c.toNat = 9 ∨ c.toNat = 10 ∨ c.toNat = 11 ∨
    c.toNat = 12 ∨ c.toNat = 13)

/-- Negation of `isPySpace`, i.e. the regex class `\S`. -/
def notSpace (c : Char) : Bool := !isPySpace c

/-- Python `str.lower`, modelled on ASCII `A`-`Z` and the Latin-1 uppercase
letters `À` (0xC0) - `Þ` (0xDE) except `×` (0xD7); identity elsewhere. -/
def pyLower (c : Char) : Char :=
  if 65 ≤ c.toNat ∧ c.toNat ≤ 90 then Char.ofNat (c.toNat + 32)
  else if 192 ≤ c.toNat ∧ c.toNat ≤ 222 ∧ c.toNat ≠ 215 then Char.ofNat (c.toNat + 32)
  else c

/-- The emoji / symbol character class removed by `clean_text`
(`emoji_pattern` in src/data_processing.py lines 59-78; `re.sub` with an
empty replacement deletes exactly the characters of the class). -/
def isEmojiChar (c : Char) : Bool :=
  decide ((0x1F600 ≤ c.toNat ∧ c.toNat ≤ 0x1F64F) ∨
    (0x1F300 ≤ c.toNat ∧ c.toNat ≤ 0x1F5FF) ∨
    (0x1F680 ≤ c.toNat ∧ c.toNat ≤ 0x1F6FF) ∨
    (0x1F1E0 ≤ c.toNat ∧ c.toNat ≤ 0x1F1FF) ∨
    (0x2700 ≤ c.toNat ∧ c.toNat ≤ 0x27BF) ∨
    (0x1F926 ≤ c.toNat ∧ c.toNat ≤ 0x1F937) ∨
    (0x10000 ≤ c.toNat ∧ c.toNat ≤ 0x10FFFF) ∨
    (0x2640 ≤ c.toNat ∧ c.toNat ≤ 0x2642) ∨
    (0x2600 ≤ c.toNat ∧ c.toNat ≤ 0x2B55) ∨
    c.toNat = 0x200D ∨ c.toNat = 0x23CF ∨ c.toNat = 0x23E9 ∨
    c.toNat = 0x231A ∨ c.toNat = 0xFE0F ∨ c.toNat = 0x3030)

/-- `string.punctuation`, the 32 ASCII punctuation characters removed by
`text.translate(str.maketrans("", "", string.punctuation))`. -/
def isPunctChar (c : Char) : Bool :=
  decide ((33 ≤ c.toNat ∧ c.toNat ≤ 47) ∨ (58 ≤ c.toNat ∧ c.toNat ≤ 64) ∨
    (91 ≤ c.toNat ∧ c.toNat ≤ 96) ∨ (123 ≤ c.toNat ∧ c.toNat ≤ 126))

/-- The character class `[a-zàâäéèêëîïôöùûüç0-9\s]` kept by the
"Conservation des caractères français et chiffres" substitution
(every other character is replaced by a space). -/
def isAllowedChar (c : Char) : Bool :=
  decide ((97 ≤ c.toNat ∧ c.toNat ≤ 122) ∨ (48 ≤ c.toNat ∧ c.toNat ≤ 57) ∨
    c.toNat = 224 ∨ c.toNat = 226 ∨ c.toNat = 228 ∨ c.toNat = 233 ∨
    c.toNat = 232 ∨ c.toNat = 234 ∨ c.toNat = 235 ∨ c.toNat = 238 ∨
    c.toNat = 239 ∨ c.toNat = 244 ∨ c.toNat = 246 ∨ c.toNat = 249 ∨
    c.toNat = 251 ∨ c.toNat = 252 ∨ c.toNat = 231 ∨ isPySpace c = true)

/-- Remove trailing Python whitespace (the right half of `str.strip`). -/
def dropTrailingWs : List Char → List Char
  | [] => []
  | c :: cs =>
    let r := dropTrailingWs cs
    if r = [] ∧ isPySpace c = true then [] else c :: r

/-- Python `str.strip()`: drop leading and trailing whitespace. -/
def stripChars (l : List Char) : List Char :=
  dropTrailingWs (l.dropWhile isPySpace)

/-- Does the list start with a match of the regex alternative `http\S+`?
(`https\S+`, the third alternative of the URL regex, is subsumed by this
one and can never fire.) -/
def urlStartHttp : List Char → Bool
  | c1 :: c2 :: c3 :: c4 :: c5 :: _ =>
    c1 == 'h' && c2 == 't' && c3 == 't' && c4 == 'p' && notSpace c5
  | _ => false

/-- Does the list start with a match of the regex alternative `www\S+`? -/
def urlStartWww : List Char → Bool
  | c1 :: c2 :: c3 :: c4 :: _ =>
    c1 == 'w' && c2 == 'w' && c3 == 'w' && notSpace c4
  | _ => false

/-- Fuelled worker for `subUrl`; the fuel only forces structural
termination and `subUrl` always supplies enough of it (each step consumes
at least one character). -/
def subUrlGo : Nat → List Char → List Char
  | 0, l => l
  | _ + 1, [] => []
  | fuel + 1, c :: cs =>
    if urlStartHttp (c :: cs) then subUrlGo fuel (List.dropWhile notSpace (cs.drop 3))
    else if urlStartWww (c :: cs) then subUrlGo fuel (List.dropWhile notSpace (cs.drop 2))
    else c :: subUrlGo fuel cs

/-- `re.sub(r"http\S+|www\S+|https\S+", "", text)`: left-to-right scan,
deleting each leftmost match (the literal followed by the greedy run of
non-whitespace characters). -/
def subUrl (l : List Char) : List Char := subUrlGo l.length l

/-- Python `str.split()` (split on whitespace runs, dropping empty
tokens), written with a one-character lookahead so that it is structurally
recursive. -/
def splitWs : List Char → List (List Char)
  | [] => []
  | [c] => if isPySpace c then [] else [[c]]
  | c :: d :: cs =>
    if isPySpace c then splitWs (d :: cs)
    else
      if isPySpace d then [c] :: splitWs (d :: cs)
      else
        match splitWs (d :: cs) with
        | [] => [[c]]
        | w :: ws => (c :: w) :: ws

/-- Python `" ".join(words)`. -/
def joinWords : List (List Char) → List Char
  | [] => []
  | [w] => w
  | w :: ws => w ++ (' ' :: joinWords ws)

/-- `re.sub(r"\s+", " ", text)`: replace each maximal whitespace run by a
single space (one-character lookahead keeps it structurally recursive). -/
def collapseWs : List Char → List Char
  | [] => []
  | [c] => if isPySpace c then [' '] else [c]
  | c :: d :: cs =>
    if isPySpace c then
      (if isPySpace d then collapseWs (d :: cs) else ' ' :: collapseWs (d :: cs))
    else c :: collapseWs (d :: cs)

/-- `TextProcessingConfig.BASIC_FRENCH_STOPWORDS` (src/config/settings.py);
the source set literal repeats "et", which Python set semantics make
harmless, as does list membership here.  This is the stopword set
`initialize_nltk` installs when NLTK is unavailable; the theorems below
model the pipeline with this in-repository set. -/
def stopwords_fr : List String :=
  ["le", "de", "et", "à", "un", "il", "être", "et", "en", "avoir", "que", "pour",
   "dans", "ce", "son", "une", "sur", "avec", "ne", "se", "pas", "tout", "plus",
   "par", "grand", "les", "des", "du", "la", "au", "aux", "ces", "ses", "nos",
   "vos", "leurs", "est", "sont", "était", "ont", "cette", "mais", "très",
   "bien", "sans", "peut", "fait", "faire", "voir", "deux", "comme", "aussi"]

/-- The per-word filter of the stopword stage:
`word not in stopwords_fr and len(word) > 2`. -/
def keepWord (w : List Char) : Bool :=
  !(stopwords_fr.contains (String.mk w)) && decide (2 < w.length)

/-- The body of `clean_text` (src/data_processing.py lines 52-95) on a
non-empty character list: lowercase and strip, delete URLs, delete emoji,
delete punctuation, keep only French letters / digits / whitespace
(others become spaces), drop stopwords and short words, and normalise
whitespace. -/
def preTokens (l : List Char) : List Char :=
  let t1 := stripChars (l.map pyLower)
  let t2 := subUrl t1
  let t3 := t2.filter (fun c => !isEmojiChar c)
  let t4 := t3.filter (fun c => !isPunctChar c)
  t4.map (fun c => if isAllowedChar c then c else ' ')

/-- The last two stages of `clean_text`: the stopword stage (guarded by
`if stopwords_fr:`) and the final whitespace normalisation. -/
def cleanPipeline (l : List Char) : List Char :=
  let t5 := preTokens l
  let t6 := if stopwords_fr.isEmpty then t5
            else joinWords ((splitWs t5).filter keepWord)
  stripChars (collapseWs t6)

/-- `clean_text` on a string argument: the `if not text` guard returns ""
for the empty string, otherwise the cleaning pipeline runs. -/
def clean_text (text : String) : String :=
  if text.data = [] then "" else String.mk (cleanPipeline text.data)

/-- A Python value passed to `clean_text`: `None`, a string, or any
non-string value (the guard `if not text or not isinstance(text, str)`
sends the latter two kinds of non-strings to ""). -/
inductive PyValue where
  | none : PyValue
  | str : String → PyValue
  | other : PyValue

/-- `clean_text` on an arbitrary Python value: non-strings (and `None`)
return "" from the guard; strings run the pipeline.  Total by
construction, which models "never raises". -/
def clean_text_py : PyValue → String
  | PyValue.str s => clean_text s
  | _ => ""

/-- Does `pat` occur as a contiguous substring at the head of `hay`
(Python `str.startswith`, used to define substring containment)? -/
def listStartsWith : List Char → List Char → Bool
  | _, [] => true
  | [], _ :: _ => false
  | x :: xs, y :: ys => x == y && listStartsWith xs ys

/-- Python `pat in hay` on strings: substring containment. -/
def containsSub : List Char → List Char → Bool
  | [], pat => pat.isEmpty
  | c :: t, pat => listStartsWith (c :: t) pat || containsSub t pat

/-- The positive keyword set of `analyze_sentiment_simple`
(src/data_processing.py lines 113-119; the source set literal lists
"parfait" twice, deduplicated by Python set semantics). -/
def positive_keywords : List String :=
  ["excellent", "fantastique", "parfait", "super", "génial", "formidable",
   "merveilleux", "incroyable", "magnifique", "extraordinaire", "remarquable",
   "satisfait", "content", "heureux", "ravi", "enchanté", "impressionné",
   "recommande", "qualité", "rapide", "efficace", "professionnel", "top",
   "bon", "bien", "mieux", "meilleur", "love", "adore", "parfait"]

/-- The negative keyword set of `analyze_sentiment_simple`
(src/data_processing.py lines 122-128). -/
def negative_keywords : List String :=
  ["mauvais", "terrible", "horrible", "nul", "catastrophique", "décevant",
   "insatisfait", "mécontent", "frustré", "énervé", "fâché", "déçu",
   "problème", "erreur", "défaut", "cassé", "abîmé", "retard", "lent",
   "cher", "arnaque", "vol", "scandale", "inadmissible", "inacceptable",
   "pire", "déteste", "horreur", "cauchemar", "regret"]

/-- `sum(1 for word in keywords if word in text_lower)`: the number of
distinct keywords occurring as substrings of the lowered text (the
keyword literals are Python sets, hence the deduplication). -/
def countKw (kws : List String) (text_lower : List Char) : Nat :=
  ((kws.dedup).filter (fun k => containsSub text_lower k.data)).length

/-- `analyze_sentiment_simple` (src/data_processing.py lines 97-140). -/
def analyze_sentiment_simple (text : String) : String :=
  if text.data = [] then "neutral"
  else
    let text_lower := text.data.map pyLower
    let positive_count := countKw positive_keywords text_lower
    let negative_count := countKw negative_keywords text_lower
    if positive_count > negative_count ∧ positive_count > 0 then "positive"
    else if negative_count > positive_count ∧ negative_count > 0 then "negative"
    else "neutral"

/-- `TextProcessingConfig.SENTIMENT_THRESHOLDS` (src/config/settings.py
lines 82-85): positive ≥ 3, negative < 2. -/
structure ThresholdConfig where
  positive : Int
  negative : Int

/-- The configured thresholds: `{"positive": 3, "negative": 2}`. -/
def SENTIMENT_THRESHOLDS : ThresholdConfig := { positive := 3, negative := 2 }

/-- `label_sentiment` (src/data_processing.py lines 142-160). -/
def label_sentiment (numeric_label : Int) : String :=
  if SENTIMENT_THRESHOLDS.positive ≤ numeric_label then "positive"
  else if numeric_label < SENTIMENT_THRESHOLDS.negative then "negative"
  else "neutral"

/-- The dictionary returned by `process_review`. -/
structure ProcessedReview where
  original_text : String
  cleaned_text : String
  sentiment : String
  numeric_rating : Option Int

/-- `process_review` (src/data_processing.py lines 162-189); the Python
default `numeric_rating=None` is the `none` argument. -/
def process_review (text : String) (numeric_rating : Option Int) : ProcessedReview :=
  let cleaned_text := clean_text text
  let sentiment :=
    match numeric_rating with
    | some r => label_sentiment r
    | none => analyze_sentiment_simple cleaned_text
  { original_text := text, cleaned_text := cleaned_text,
    sentiment := sentiment, numeric_rating := numeric_rating }

namespace ResponseTemplates

/-- `ResponseTemplates.POSITIVE` (src/config/settings.py lines 50-54). -/
def POSITIVE : List String :=
  ["Merci beaucoup pour votre retour positif ! Nous sommes ravis que notre produit vous satisfasse. Votre satisfaction est notre priorité.",
   "Quel plaisir de lire votre commentaire ! Nous apprécions vraiment votre confiance et espérons continuer à vous satisfaire.",
   "Nous sommes enchantés de votre satisfaction ! Merci de partager votre expérience positive avec nous."]

/-- `ResponseTemplates.NEGATIVE` (src/config/settings.py lines 56-60). -/
def NEGATIVE : List String :=
  ["Nous vous remercions pour votre retour et nous excusons sincèrement pour les désagréments rencontrés. Notre équipe va examiner votre cas avec attention.",
   "Votre expérience nous tient à cœur et nous regrettons que nos services n'aient pas été à la hauteur de vos attentes. Nous travaillons à nous améliorer.",
   "Nous prenons vos commentaires très au sérieux et nous nous engageons à trouver une solution rapide à votre problème."]

/-- `ResponseTemplates.NEUTRAL` (src/config/settings.py lines 62-66). -/
def NEUTRAL : List String :=
  ["Merci pour votre retour constructif. Nous prenons tous les commentaires en considération pour améliorer continuellement nos services.",
   "Nous apprécions votre feedback équilibré qui nous aide à mieux comprendre les besoins de nos clients.",
   "Votre avis nous guide dans nos efforts d'amélioration continue. Merci de prendre le temps de nous faire part de vos observations."]

end ResponseTemplates

/-- `random.choice(templates)`, modelled by an explicit index `k`: the
choice is some element of the list, and quantifying over `k` covers every
possible draw (`k % length` ranges over all positions). -/
def pyChoice (l : List String) (k : Nat) : String := l.getD (k % l.length) ""

/-- The marker words of the positive branch of
`generate_fallback_response` (src/generate_response.py line 117). -/
def positiveMarkers : List String := ["positif", "positive", "good", "great"]

/-- The marker words of the neutral branch of
`generate_fallback_response` (src/generate_response.py line 119). -/
def neutralMarkers : List String := ["neutre", "neutral", "mixed"]

/-- `generate_fallback_response` (src/generate_response.py lines 104-125):
pick the template list by scanning `sentiment.lower()` for marker words
(anything unrecognised falls to NEGATIVE), then a random template from it. -/
def generate_fallback_response (texte sentiment : String) (k : Nat) : String :=
  let sl := sentiment.data.map pyLower
  let templates :=
    if positiveMarkers.any (fun w => containsSub sl w.data) then ResponseTemplates.POSITIVE
    else if neutralMarkers.any (fun w => containsSub sl w.data) then ResponseTemplates.NEUTRAL
    else ResponseTemplates.NEGATIVE
  pyChoice templates k

/-- The process-wide state of src/generate_response.py that
`generer_reponse` reads: the `ENABLE_AI_MODEL` flag, whether
`tokenizer`/`model` are loaded, whether `gen_pipe` is loaded, and the
outcome of a model generation attempt (either an exception or the decoded
`generated_text`). -/
structure AiEnv where
  enable_ai_model : Bool
  model_loaded : Bool
  gen_pipe_loaded : Bool
  generation : Except String String

/-- Python string slicing `s[n:]` (by code points). -/
def pyDropChars (s : String) (n : Nat) : String := String.mk (s.data.drop n)

/-- Python `str.strip()` on a `String`. -/
def stripStr (s : String) : String := String.mk (stripChars s.data)

/-- `generate_ai_response` (src/generate_response.py lines 127-175):
guard on loaded model, try generation (any exception falls back), strip
the prompt prefix `"Avis client: " + texte`, and keep the response only
when `len(response) > 15 and len(response) < 300`. -/
def generate_ai_response (env : AiEnv) (texte sentiment : String) (k : Nat) : String :=
  if env.model_loaded = false then generate_fallback_response texte sentiment k
  else
    match env.generation with
    | Except.error _ => generate_fallback_response texte sentiment k
    | Except.ok generated_text =>
      let input_text := "Avis client: " ++ texte
      let response := stripStr (pyDropChars generated_text input_text.length)
      if 15 < response.length ∧ response.length < 300 then response
      else generate_fallback_response texte sentiment k

/-- `generer_reponse` (src/generate_response.py lines 177-194). -/
def generer_reponse (env : AiEnv) (texte sentiment : String) (k : Nat) : String :=
  if env.enable_ai_model = true ∧ env.gen_pipe_loaded = true then
    generate_ai_response env texte sentiment k
  else generate_fallback_response texte sentiment k

/-- `generer_reponse` called without a sentiment argument: the Python
signature defaults `sentiment` to "negative". -/
def generer_reponse_texte_only (env : AiEnv) (texte : String) (k : Nat) : String :=
  generer_reponse env texte "negative" k

/-- The `AnalyseResponse` record built by the `/analyse` endpoint. -/
structure AnalyseResponse where
  sentiment : String
  reponse : String
  texte_nettoye : String
  confiance : String

/-- The body of `analyser_avis` (src/main.py lines 112-131): process the
review, generate a reply from the cleaned text and sentiment, and derive
the confidence label ("très élevée" when a rating is given, else "faible"
for cleaned text shorter than 10 characters, else "élevée"). -/
def analyser_avis (env : AiEnv) (k : Nat) (texte : String)
    (note_numerique : Option Int) : AnalyseResponse :=
  let processed := process_review texte note_numerique
  let reponse := generer_reponse env processed.cleaned_text processed.sentiment k
  let confiance :=
    if note_numerique.isSome then "très élevée"
    else if processed.cleaned_text.length < 10 then "faible"
    else "élevée"
  { sentiment := processed.sentiment, reponse := reponse,
    texte_nettoye := processed.cleaned_text, confiance := confiance }

/-! ### Character-level facts -/

theorem allowed_not_emoji {c : Char} (h : isAllowedChar c = true) :
    isEmojiChar c = false := by
  simp only [isAllowedChar, isPySpace, decide_eq_true_eq] at h
  simp only [isEmojiChar, decide_eq_false_iff_not]
  omega

theorem allowed_not_punct {c : Char} (h : isAllowedChar c = true) :
    isPunctChar c = false := by
  simp only [isAllowedChar, isPySpace, decide_eq_true_eq] at h
  simp only [isPunctChar, decide_eq_false_iff_not]
  omega

theorem allowed_pyLower_fix {c : Char} (h : isAllowedChar c = true) :
    pyLower c = c := by
  simp only [isAllowedChar, isPySpace, decide_eq_true_eq] at h
  unfold pyLower
  split_ifs with h1 h2
  · exfalso; omega
  · exfalso; omega
  · rfl

theorem space_allowed : isAllowedChar ' ' = true := by decide

/-! ### Generic list lemmas for the pipeline stages -/

theorem filter_eq_self_of {α : Type} {p : α → Bool} :
    ∀ l : List α, (∀ c ∈ l, p c = true) → l.filter p = l := by
  intro l h
  induction l with
  | nil => rfl
  | cons a t ih =>
    have ha : p a = true := h a (List.mem_cons_self a t)
    simp only [List.filter_cons, ha, if_true]
    rw [ih (fun c hc => h c (List.mem_cons_of_mem a hc))]

theorem map_eq_self_of {α : Type} {f : α → α} :
    ∀ l : List α, (∀ c ∈ l, f c = c) → l.map f = l := by
  intro l h
  induction l with
  | nil => rfl
  | cons a t ih =>
    simp only [List.map_cons]
    rw [h a (List.mem_cons_self a t), ih (fun c hc => h c (List.mem_cons_of_mem a hc))]

theorem mem_dropWhile {p : Char → Bool} :
    ∀ l : List Char, ∀ c, c ∈ l.dropWhile p → c ∈ l := by
  intro l
  induction l with
  | nil => intro c h; simpa using h
  | cons a t ih =>
    intro c h
    rw [List.dropWhile_cons] at h
    by_cases hp : p a = true
    · simp only [hp, if_true] at h
      exact List.mem_cons_of_mem a (ih c h)
    · simp only [hp, if_false] at h
      exact h

theorem mem_takeWhile {p : Char → Bool} :
    ∀ l : List Char, ∀ c, c ∈ l.takeWhile p → c ∈ l ∧ p c = true := by
  intro l
  induction l with
  | nil => intro c h; simp at h
  | cons a t ih =>
    intro c h
    rw [List.takeWhile_cons] at h
    by_cases hp : p a = true
    · simp only [hp, if_true, List.mem_cons] at h
      rcases h with h | h
      · exact ⟨by simp [h], h ▸ hp⟩
      · obtain ⟨h1, h2⟩ := ih c h
        exact ⟨List.mem_cons_of_mem a h1, h2⟩
    · simp only [hp, if_false] at h
      simp at h

theorem takeWhile_append_all {p : Char → Bool} :
    ∀ w l : List Char, (∀ c ∈ w, p c = true) →
      (w ++ l).takeWhile p = w ++ l.takeWhile p := by
  intro w l h
  induction w with
  | nil => rfl
  | cons a t ih =>
    have ha : p a = true := h a (List.mem_cons_self a t)
    simp only [List.cons_append, List.takeWhile_cons, ha, if_true]
    rw [ih (fun c hc => h c (List.mem_cons_of_mem a hc))]

theorem dropWhile_append_all {p : Char → Bool} :
    ∀ w l : List Char, (∀ c ∈ w, p c = true) →
      (w ++ l).dropWhile p = l.dropWhile p := by
  intro w l h
  induction w with
  | nil => rfl
  | cons a t ih =>
    have ha : p a = true := h a (List.mem_cons_self a t)
    simp only [List.cons_append, List.dropWhile_cons, ha, if_true]
    exact ih (fun c hc => h c (List.mem_cons_of_mem a hc))

theorem takeWhile_all {p : Char → Bool} (l : List Char)
    (h : ∀ c ∈ l, p c = true) : l.takeWhile p = l := by
  have := takeWhile_append_all l [] h
  simpa using this

theorem dropWhile_all {p : Char → Bool} (l : List Char)
    (h : ∀ c ∈ l, p c = true) : l.dropWhile p = [] := by
  have := dropWhile_append_all l [] h
  simpa using this

/-! ### `dropTrailingWs` and `stripChars` -/

theorem mem_dropTrailingWs :
    ∀ l : List Char, ∀ c, c ∈ dropTrailingWs l → c ∈ l := by
  intro l
  induction l with
  | nil => intro c h; simpa [dropTrailingWs] using h
  | cons a t ih =>
    intro c h
    simp only [dropTrailingWs] at h
    split_ifs at h with hcond
    · simp at h
    · rcases List.mem_cons.mp h with h | h
      · simp [h]
      · exact List.mem_cons_of_mem a (ih c h)

theorem dropTrailingWs_nospace :
    ∀ l : List Char, (∀ c ∈ l, isPySpace c = false) → dropTrailingWs l = l := by
  intro l h
  induction l with
  | nil => rfl
  | cons a t ih =>
    have ha : isPySpace a = false := h a (List.mem_cons_self a t)
    have ht : dropTrailingWs t = t := ih (fun c hc => h c (List.mem_cons_of_mem a hc))
    simp only [dropTrailingWs, ht]
    rw [if_neg]
    intro hcond
    rw [hcond.2] at ha
    exact Bool.true_eq_false ▸ ha

theorem dropTrailingWs_append :
    ∀ w l : List Char, dropTrailingWs l ≠ [] →
      dropTrailingWs (w ++ l) = w ++ dropTrailingWs l := by
  intro w l hl
  induction w with
  | nil => rfl
  | cons a t ih =>
    have hne : t ++ dropTrailingWs l ≠ [] := by
      intro hc
      rcases List.append_eq_nil.mp hc with ⟨_, h2⟩
      exact hl h2
    show (let r := dropTrailingWs (t ++ l);
          if r = [] ∧ isPySpace a = true then [] else a :: r) = a :: (t ++ dropTrailingWs l)
    simp only [ih]
    rw [if_neg (fun hcond => hne hcond.1)]

theorem stripChars_nil : stripChars [] = [] := rfl

theorem mem_stripChars (l : List Char) (c : Char) (h : c ∈ stripChars l) : c ∈ l :=
  mem_dropWhile l c (mem_dropTrailingWs _ c h)

/-! ### `collapseWs` -/

theorem mem_collapseWs :
    ∀ l : List Char, ∀ c, c ∈ collapseWs l → c ∈ l ∨ c = ' ' := by
  intro l
  induction l with
  | nil => intro c h; simpa [collapseWs] using h
  | cons a t ih =>
    intro c h
    cases t with
    | nil =>
      simp only [collapseWs] at h
      split_ifs at h with hsp
      · simp at h; right; exact h
      · simp at h; left; simp [h]
    | cons d cs =>
      simp only [collapseWs] at h
      split_ifs at h with h1 h2
      · rcases ih c h with h | h
        · left; exact List.mem_cons_of_mem a h
        · right; exact h
      · rcases List.mem_cons.mp h with h | h
        · right; exact h
        · rcases ih c h with h | h
          · left; exact List.mem_cons_of_mem a h
          · right; exact h
      · rcases List.mem_cons.mp h with h | h
        · left; simp [h]
        · rcases ih c h with h | h
          · left; exact List.mem_cons_of_mem a h
          · right; exact h

theorem collapseWs_append_nospace :
    ∀ w l : List Char, (∀ c ∈ w, isPySpace c = false) →
      collapseWs (w ++ l) = w ++ collapseWs l := by
  intro w l h
  induction w with
  | nil => rfl
  | cons a t ih =>
    have ha : isPySpace a = false := h a (List.mem_cons_self a t)
    have ih' := ih (fun c hc => h c (List.mem_cons_of_mem a hc))
    cases htl : t ++ l with
    | nil =>
      rcases List.append_eq_nil.mp htl with ⟨ht, hl⟩
      subst ht; subst hl
      simp only [List.cons_append, List.append_nil, collapseWs, ha]
      simp
    | cons d cs =>
      simp only [List.cons_append, htl, collapseWs, ha]
      simp only [Bool.false_eq_true, if_false]
      rw [← htl, ih']

/-! ### `joinWords` -/

theorem joinWords_cons (w : List Char) (ws : List (List Char)) :
    joinWords (w :: ws) = w ++ (if ws = [] then [] else ' ' :: joinWords ws) := by
  cases ws with
  | nil => simp [joinWords]
  | cons w2 rest => simp [joinWords]

theorem joinWords_ne_nil (w : List Char) (ws : List (List Char)) (h : w ≠ []) :
    joinWords (w :: ws) ≠ [] := by
  rw [joinWords_cons]
  intro hc
  exact h (List.append_eq_nil.mp hc).1

theorem mem_joinWords :
    ∀ ws : List (List Char), ∀ c, c ∈ joinWords ws →
      (∃ w ∈ ws, c ∈ w) ∨ c = ' ' := by
  intro ws
  induction ws with
  | nil => intro c h; simp [joinWords] at h
  | cons w rest ih =>
    intro c h
    rw [joinWords_cons] at h
    rcases List.mem_append.mp h with h | h
    · exact Or.inl ⟨w, List.mem_cons_self w rest, h⟩
    · split_ifs at h with hrest
      · simp at h
      · rcases List.mem_cons.mp h with h | h
        · exact Or.inr h
        · rcases ih c h with ⟨w', hw', hc⟩ | h
          · exact Or.inl ⟨w', List.mem_cons_of_mem w hw', hc⟩
          · exact Or.inr h

theorem collapseWs_join :
    ∀ ws : List (List Char),
      (∀ w ∈ ws, w ≠ [] ∧ ∀ c ∈ w, isPySpace c = false) →
      collapseWs (joinWords ws) = joinWords ws := by
  intro ws
  induction ws with
  | nil => intro _; rfl
  | cons w rest ih =>
    intro h
    obtain ⟨hw, hwc⟩ := h w (List.mem_cons_self w rest)
    have ih' := ih (fun w' hw' => h w' (List.mem_cons_of_mem w hw'))
    cases rest with
    | nil =>
      show collapseWs (joinWords [w]) = joinWords [w]
      have : joinWords [w] = w ++ [] := by simp [joinWords]
      rw [this, collapseWs_append_nospace w [] hwc]
      rfl
    | cons w2 rest2 =>
      obtain ⟨hw2, _⟩ := h w2 (List.mem_cons_of_mem w (List.mem_cons_self w2 rest2))
      show collapseWs (w ++ (' ' :: joinWords (w2 :: rest2))) =
        w ++ (' ' :: joinWords (w2 :: rest2))
      rw [collapseWs_append_nospace w _ hwc]
      congr 1
      obtain ⟨e, w2', he⟩ : ∃ e w2', w2 = e :: w2' := by
        cases w2 with
        | nil => exact absurd rfl hw2
        | cons e t => exact ⟨e, t, rfl⟩
      have hjoin : joinWords (w2 :: rest2) =
          e :: (w2' ++ (if rest2 = [] then [] else ' ' :: joinWords rest2)) := by
        rw [joinWords_cons, he, List.cons_append]
      have hesp : isPySpace e = false := by
        have := (h w2 (List.mem_cons_of_mem w (List.mem_cons_self w2 rest2))).2
        exact this e (he ▸ List.mem_cons_self e w2')
      rw [hjoin]
      have h1 : isPySpace ' ' = true := by decide
      simp only [collapseWs, h1, hesp, if_true, Bool.false_eq_true, if_false]
      rw [← hjoin, ih']

theorem dropTrailingWs_join :
    ∀ ws : List (List Char),
      (∀ w ∈ ws, w ≠ [] ∧ ∀ c ∈ w, isPySpace c = false) →
      dropTrailingWs (joinWords ws) = joinWords ws := by
  intro ws
  induction ws with
  | nil => intro _; rfl
  | cons w rest ih =>
    intro h
    obtain ⟨hw, hwc⟩ := h w (List.mem_cons_self w rest)
    have ih' := ih (fun w' hw' => h w' (List.mem_cons_of_mem w hw'))
    cases rest with
    | nil =>
      show dropTrailingWs (joinWords [w]) = joinWords [w]
      exact dropTrailingWs_nospace w hwc
    | cons w2 rest2 =>
      obtain ⟨hw2, _⟩ := h w2 (List.mem_cons_of_mem w (List.mem_cons_self w2 rest2))
      show dropTrailingWs (w ++ (' ' :: joinWords (w2 :: rest2))) =
        w ++ (' ' :: joinWords (w2 :: rest2))
      have hJ : joinWords (w2 :: rest2) ≠ [] := joinWords_ne_nil w2 rest2 hw2
      have htail : dropTrailingWs (' ' :: joinWords (w2 :: rest2)) =
          ' ' :: joinWords (w2 :: rest2) := by
        show (let r := dropTrailingWs (joinWords (w2 :: rest2));
              if r = [] ∧ isPySpace ' ' = true then [] else ' ' :: r) = _
        simp only [ih']
        rw [if_neg (fun hc => hJ hc.1)]
      have hne : dropTrailingWs (' ' :: joinWords (w2 :: rest2)) ≠ [] := by
        rw [htail]; exact List.cons_ne_nil _ _
      rw [dropTrailingWs_append w _ hne, htail]

theorem stripChars_join :
    ∀ ws : List (List Char),
      (∀ w ∈ ws, w ≠ [] ∧ ∀ c ∈ w, isPySpace c = false) →
      stripChars (joinWords ws) = joinWords ws := by
  intro ws h
  cases ws with
  | nil => rfl
  | cons w rest =>
    obtain ⟨hw, hwc⟩ := h w (List.mem_cons_self w rest)
    obtain ⟨e, w', he⟩ : ∃ e w', w = e :: w' := by
      cases w with
      | nil => exact absurd rfl hw
      | cons e t => exact ⟨e, t, rfl⟩
    have hesp : isPySpace e = false := hwc e (he ▸ List.mem_cons_self e w')
    unfold stripChars
    have hdw : List.dropWhile isPySpace (joinWords (w :: rest)) =
        joinWords (w :: rest) := by
      rw [joinWords_cons, he, List.cons_append, List.dropWhile_cons, hesp]
      simp
    rw [hdw]
    exact dropTrailingWs_join (w :: rest) h

/-! ### `splitWs` -/

theorem splitWs_cons_space (c : Char) (cs : List Char) (h : isPySpace c = true) :
    splitWs (c :: cs) = splitWs cs := by
  cases cs with
  | nil => simp [splitWs, h]
  | cons d cs' => simp [splitWs, h]

theorem splitWs_eq (cs : List Char) :
    ∀ c : Char, isPySpace c = false →
      splitWs (c :: cs) =
        (c :: cs.takeWhile notSpace) :: splitWs (cs.dropWhile notSpace) := by
  induction cs with
  | nil => intro c hc; simp [splitWs, hc]
  | cons d cs' ih =>
    intro c hc
    by_cases hd : isPySpace d = true
    · have hnd : notSpace d = false := by simp [notSpace, hd]
      simp only [splitWs, hc, Bool.false_eq_true, if_false, hd, if_true,
        List.takeWhile_cons, hnd, List.dropWhile_cons]
    · have hd' : isPySpace d = false := by simpa using hd
      have hnd : notSpace d = true := by simp [notSpace, hd']
      have ihd := ih d hd'
      simp only [splitWs, hc, Bool.false_eq_true, if_false, hd', ihd,
        List.takeWhile_cons, hnd, List.dropWhile_cons, if_true]

theorem splitWs_words :
    ∀ l : List Char, ∀ w ∈ splitWs l, w ≠ [] ∧
      ∀ c ∈ w, isPySpace c = false ∧ c ∈ l := by
  intro l
  induction l with
  | nil => intro w hw; simp [splitWs] at hw
  | cons a t ih =>
    intro w hw
    by_cases ha : isPySpace a = true
    · rw [splitWs_cons_space a t ha] at hw
      obtain ⟨h1, h2⟩ := ih w hw
      exact ⟨h1, fun c hc => ⟨(h2 c hc).1, List.mem_cons_of_mem a (h2 c hc).2⟩⟩
    · have ha' : isPySpace a = false := by simpa using ha
      cases t with
      | nil =>
        simp only [splitWs, ha', Bool.false_eq_true, if_false, List.mem_cons,
          List.not_mem_nil, or_false] at hw
        subst hw
        refine ⟨List.cons_ne_nil _ _, ?_⟩
        intro c hc
        simp only [List.mem_cons, List.not_mem_nil, or_false] at hc
        subst hc
        exact ⟨ha', List.mem_cons_self c []⟩
      | cons d cs =>
        rw [splitWs_eq (d :: cs) a ha'] at hw
        by_cases hd : isPySpace d = true
        · have hnd : notSpace d = false := by simp [notSpace, hd]
          rw [List.takeWhile_cons, List.dropWhile_cons] at hw
          simp only [hnd, Bool.false_eq_true, if_false] at hw
          rcases List.mem_cons.mp hw with hw | hw
          · subst hw
            refine ⟨List.cons_ne_nil _ _, ?_⟩
            intro c hc
            simp only [List.mem_cons, List.not_mem_nil, or_false] at hc
            subst hc
            exact ⟨ha', List.mem_cons_self c _⟩
          · obtain ⟨h1, h2⟩ := ih w hw
            exact ⟨h1, fun c hc => ⟨(h2 c hc).1, List.mem_cons_of_mem a (h2 c hc).2⟩⟩
        · have hd' : isPySpace d = false := by simpa using hd
          have hnd : notSpace d = true := by simp [notSpace, hd']
          have ihead := ih (d :: List.takeWhile notSpace cs)
            (by rw [splitWs_eq cs d hd']; exact List.mem_cons_self _ _)
          rw [List.takeWhile_cons, List.dropWhile_cons] at hw
          simp only [hnd, if_true] at hw
          rcases List.mem_cons.mp hw with hw | hw
          · subst hw
            refine ⟨List.cons_ne_nil _ _, ?_⟩
            intro c hc
            rcases List.mem_cons.mp hc with hc | hc
            · subst hc; exact ⟨ha', List.mem_cons_self c _⟩
            · obtain ⟨_, h2⟩ := ihead
              obtain ⟨hc1, hc2⟩ := h2 c hc
              exact ⟨hc1, List.mem_cons_of_mem a hc2⟩
          · have hwmem : w ∈ splitWs (d :: cs) := by
              rw [splitWs_eq cs d hd']
              exact List.mem_cons_of_mem _ hw
            obtain ⟨h1, h2⟩ := ih w hwmem
            exact ⟨h1, fun c hc => ⟨(h2 c hc).1, List.mem_cons_of_mem a (h2 c hc).2⟩⟩

theorem splitWs_join :
    ∀ ws : List (List Char),
      (∀ w ∈ ws, w ≠ [] ∧ ∀ c ∈ w, isPySpace c = false) →
      splitWs (joinWords ws) = ws := by
  intro ws
  induction ws with
  | nil => intro _; rfl
  | cons w rest ih =>
    intro h
    obtain ⟨hw, hwc⟩ := h w (List.mem_cons_self w rest)
    obtain ⟨e, w', he⟩ : ∃ e w', w = e :: w' := by
      cases w with
      | nil => exact absurd rfl hw
      | cons e t => exact ⟨e, t, rfl⟩
    have hesp : isPySpace e = false := hwc e (he ▸ List.mem_cons_self e w')
    have hw'ns : ∀ c ∈ w', notSpace c = true := by
      intro c hc
      have := hwc c (he ▸ List.mem_cons_of_mem e hc)
      simp [notSpace, this]
    cases rest with
    | nil =>
      show splitWs (joinWords [w]) = [w]
      have hj : joinWords [w] = e :: w' := by rw [he]; rfl
      rw [hj, splitWs_eq w' e hesp, takeWhile_all w' hw'ns, dropWhile_all w' hw'ns]
      rw [he]
      rfl
    | cons w2 rest2 =>
      have ih' := ih (fun w'' hw'' => h w'' (List.mem_cons_of_mem w hw''))
      show splitWs (w ++ (' ' :: joinWords (w2 :: rest2))) = w :: w2 :: rest2
      have hns : notSpace ' ' = false := by decide
      rw [he, List.cons_append,
        splitWs_eq (w' ++ (' ' :: joinWords (w2 :: rest2))) e hesp,
        takeWhile_append_all w' _ hw'ns, dropWhile_append_all w' _ hw'ns,
        List.takeWhile_cons, List.dropWhile_cons]
      simp only [hns, Bool.false_eq_true, if_false, List.append_nil]
      rw [splitWs_cons_space ' ' _ (by decide), ih']

/-! ### Canonical form of cleaned text -/

/-- The invariant of every word of a cleaned text: non-empty, made of
allowed non-whitespace characters, and accepted by the stopword filter. -/
def goodWord (w : List Char) : Prop :=
  w ≠ [] ∧ (∀ c ∈ w, isAllowedChar c = true ∧ isPySpace c = false) ∧ keepWord w = true

theorem goodWord_shape {ws : List (List Char)} (h : ∀ w ∈ ws, goodWord w) :
    ∀ w ∈ ws, w ≠ [] ∧ ∀ c ∈ w, isPySpace c = false := by
  intro w hw
  obtain ⟨h1, h2, _⟩ := h w hw
  exact ⟨h1, fun c hc => (h2 c hc).2⟩

theorem preTokens_allowed (l : List Char) :
    ∀ c ∈ preTokens l, isAllowedChar c = true := by
  intro c hc
  simp only [preTokens, List.mem_map] at hc
  obtain ⟨x, _, hx⟩ := hc
  by_cases hax : isAllowedChar x = true
  · rw [if_pos hax] at hx; rw [← hx]; exact hax
  · rw [if_neg hax] at hx; rw [← hx]; exact space_allowed

theorem stopwords_fr_not_empty : stopwords_fr.isEmpty = false := rfl

theorem cleanPipeline_eq_join (l : List Char) :
    cleanPipeline l =
      stripChars (collapseWs (joinWords ((splitWs (preTokens l)).filter keepWord))) := by
  simp only [cleanPipeline, stopwords_fr_not_empty, Bool.false_eq_true, if_false]

theorem goodWord_filtered (l : List Char) :
    ∀ w ∈ (splitWs (preTokens l)).filter keepWord, goodWord w := by
  intro w hw
  obtain ⟨hmem, hkeep⟩ := List.mem_filter.mp hw
  obtain ⟨h1, h2⟩ := splitWs_words (preTokens l) w hmem
  exact ⟨h1,
    fun c hc => ⟨preTokens_allowed l c (h2 c hc).2, (h2 c hc).1⟩, hkeep⟩

theorem cleanPipeline_canonical (l : List Char) :
    ∃ ws, cleanPipeline l = joinWords ws ∧ ∀ w ∈ ws, goodWord w := by
  refine ⟨(splitWs (preTokens l)).filter keepWord, ?_, goodWord_filtered l⟩
  rw [cleanPipeline_eq_join]
  have hgood := goodWord_shape (goodWord_filtered l)
  rw [collapseWs_join _ hgood, stripChars_join _ hgood]

theorem clean_text_canonical (s : String) :
    ∃ ws, (clean_text s).data = joinWords ws ∧ ∀ w ∈ ws, goodWord w := by
  by_cases hs : s.data = []
  · refine ⟨[], ?_, by simp⟩
    simp [clean_text, hs, joinWords]
  · obtain ⟨ws, h1, h2⟩ := cleanPipeline_canonical s.data
    refine ⟨ws, ?_, h2⟩
    simp only [clean_text, hs, if_false]
    exact h1

theorem preTokens_fixed (ws : List (List Char)) (h : ∀ w ∈ ws, goodWord w)
    (hurl : subUrl (joinWords ws) = joinWords ws) :
    preTokens (joinWords ws) = joinWords ws := by
  have hally : ∀ c ∈ joinWords ws, isAllowedChar c = true := by
    intro c hc
    rcases mem_joinWords ws c hc with ⟨w, hw, hcw⟩ | hc'
    · exact ((h w hw).2.1 c hcw).1
    · subst hc'; exact space_allowed
  have hshape := goodWord_shape h
  have h1 : (joinWords ws).map pyLower = joinWords ws :=
    map_eq_self_of _ (fun c hc => allowed_pyLower_fix (hally c hc))
  have h2 : stripChars (joinWords ws) = joinWords ws := stripChars_join ws hshape
  have h3 : (joinWords ws).filter (fun c => !isEmojiChar c) = joinWords ws :=
    filter_eq_self_of _ (fun c hc => by rw [allowed_not_emoji (hally c hc)]; rfl)
  have h4 : (joinWords ws).filter (fun c => !isPunctChar c) = joinWords ws :=
    filter_eq_self_of _ (fun c hc => by rw [allowed_not_punct (hally c hc)]; rfl)
  have h5 : (joinWords ws).map (fun c => if isAllowedChar c then c else ' ') =
      joinWords ws :=
    map_eq_self_of _ (fun c hc => if_pos (hally c hc))
  simp only [preTokens]
  rw [h1, h2, hurl, h3, h4, h5]

theorem cleanPipeline_fixed (ws : List (List Char)) (h : ∀ w ∈ ws, goodWord w)
    (hurl : subUrl (joinWords ws) = joinWords ws) :
    cleanPipeline (joinWords ws) = joinWords ws := by
  have hshape := goodWord_shape h
  rw [cleanPipeline_eq_join, preTokens_fixed ws h hurl, splitWs_join ws hshape,
    filter_eq_self_of ws (fun w hw => (h w hw).2.2),
    collapseWs_join ws hshape, stripChars_join ws hshape]

theorem string_mk_data (s : String) : String.mk s.data = s := rfl

/-! ### Claim theorems -/

/-- C1, counterexample: the claim says rating-based classification returns
"positive" iff rating ≥ 4 and that `label_sentiment 3 = "neutral"`, but the
configured threshold is `positive: 3`, so `label_sentiment 3` is
"positive" although 3 < 4. -/
theorem claim1_counterexample :
    label_sentiment 3 = "positive" ∧ ¬((3 : Int) ≥ 4) ∧
      label_sentiment 3 ≠ "neutral" := by decide

/-- C1, amended: for every integer rating in [1,5], `label_sentiment`
returns "positive" iff rating ≥ 3, "negative" iff rating < 2 (i.e.
rating = 1), and "neutral" iff rating = 2 (so `label_sentiment 5` is
"positive", `label_sentiment 1` is "negative", and `label_sentiment 3` is
"positive", not "neutral"). -/
theorem claim1_rating_thresholds (r : Int) (h1 : 1 ≤ r) (h2 : r ≤ 5) :
    (label_sentiment r = "positive" ↔ 3 ≤ r) ∧
    (label_sentiment r = "negative" ↔ r < 2) ∧
    (label_sentiment r = "neutral" ↔ r = 2) := by
  interval_cases r <;> refine ⟨⟨?_, ?_⟩, ⟨?_, ?_⟩, ⟨?_, ?_⟩⟩ <;> decide

/-- C1, witness: the amended theorem applied at rating 4. -/
theorem claim1_witness :
    (label_sentiment 4 = "positive" ↔ 3 ≤ (4 : Int)) ∧
    (label_sentiment 4 = "negative" ↔ (4 : Int) < 2) ∧
    (label_sentiment 4 = "neutral" ↔ (4 : Int) = 2) :=
  claim1_rating_thresholds 4 (by decide) (by decide)

/-- C2, counterexample: `clean_text` can return a string containing
"http" — the URL regex `http\S+` needs at least one non-whitespace
character after the literal, so the bare word "http" survives cleaning
(`clean_text "http" = "http"`). -/
theorem claim2_counterexample :
    containsSub (clean_text_py (PyValue.str "http")).data ("http".data) = true := by
  decide

/-- C2, amended: for every input value (`None`, a non-string, or any
string), `clean_text` never raises — modelled by `clean_text_py` being a
total function into strings — and its result never contains a code point
from the emoji ranges the pipeline strips; the result may however contain
the substring "http". -/
theorem claim2_clean_no_emoji (x : PyValue) (c : Char)
    (h : c ∈ (clean_text_py x).data) : isEmojiChar c = false := by
  cases x with
  | str s =>
    obtain ⟨ws, hd, hg⟩ := clean_text_canonical s
    rw [show clean_text_py (PyValue.str s) = clean_text s from rfl, hd] at h
    rcases mem_joinWords ws c h with ⟨w, hw, hcw⟩ | hc'
    · exact allowed_not_emoji ((hg w hw).2.1 c hcw).1
    · subst hc'; decide
  | none => simp [clean_text_py] at h
  | other => simp [clean_text_py] at h

/-- C2, witness: the amended theorem applied to the cleaned text of
"bonjour", whose first character is 'b'. -/
theorem claim2_witness : isEmojiChar 'b' = false :=
  claim2_clean_no_emoji (PyValue.str "bonjour") 'b' (by decide)

/-- C3: when a numeric rating is supplied, `process_review`'s sentiment
depends only on the rating (it equals `label_sentiment rating` for every
text); with no rating, the sentiment is the keyword rule applied to the
cleaned text. -/
theorem claim3_rating_precedence :
    (∀ t1 t2 : String, ∀ r : Int,
      (process_review t1 (some r)).sentiment = (process_review t2 (some r)).sentiment) ∧
    (∀ t : String, ∀ r : Int,
      (process_review t (some r)).sentiment = label_sentiment r) ∧
    (∀ t : String,
      (process_review t none).sentiment = analyze_sentiment_simple (clean_text t)) :=
  ⟨fun _ _ _ => rfl, fun _ _ => rfl, fun _ => rfl⟩

/-- C4, counterexample: one cleaning pass is not a fixed point — deleting
the punctuation in "htt.px" manufactures the token "httpx", which the URL
regex of a second pass deletes entirely. -/
theorem claim4_counterexample :
    clean_text "htt.px" = "httpx" ∧ clean_text (clean_text "htt.px") = "" ∧
      clean_text (clean_text "htt.px") ≠ clean_text "htt.px" := by decide

/-- C4, amended: `clean_text` is idempotent on every input whose cleaned
text is left unchanged by the URL-removal stage (in particular whenever
the cleaned text contains no "http"/"www" followed by a non-space
character); without that proviso a second pass can differ, as in the
counterexample. -/
theorem claim4_idempotent_unless_url (x : String)
    (h : subUrl (clean_text x).data = (clean_text x).data) :
    clean_text (clean_text x) = clean_text x := by
  obtain ⟨ws, hd, hg⟩ := clean_text_canonical x
  by_cases hy : (clean_text x).data = []
  · have he : clean_text x = "" := by
      have := (string_mk_data (clean_text x)).symm
      rw [hy] at this
      exact this
    rw [he]
    rfl
  · set y := clean_text x with hyx
    show clean_text y = y
    unfold clean_text
    rw [if_neg hy, hd, cleanPipeline_fixed ws hg (hd ▸ h), ← hd, string_mk_data]

/-- C4, witness: the amended theorem applied to "bonjour". -/
theorem claim4_witness : clean_text (clean_text "bonjour") = clean_text "bonjour" :=
  claim4_idempotent_unless_url "bonjour" (by decide)

/-- Helper: `List.getD` at an in-range index is a member of the list. -/
theorem getD_mem_of_lt :
    ∀ (l : List String) (n : Nat), n < l.length → l.getD n "" ∈ l := by
  intro l
  induction l with
  | nil => intro n h; simp at h
  | cons a t ih =>
    intro n h
    cases n with
    | zero => rw [List.getD_cons_zero]; exact List.mem_cons_self a t
    | succ m =>
      rw [List.getD_cons_succ]
      exact List.mem_cons_of_mem a (ih m (by simpa using h))

/-- Helper: every possible draw of `random.choice` from a non-empty list
is a member of that list. -/
theorem pyChoice_mem (l : List String) (k : Nat) (h : l ≠ []) : pyChoice l k ∈ l :=
  getD_mem_of_lt l (k % l.length) (Nat.mod_lt _ (List.length_pos.mpr h))

/-- C5: `analyze_sentiment_simple` counts distinct positive and negative
keywords occurring as substrings of the lowercased text and returns
"positive" iff positive_count > negative_count and positive_count > 0,
"negative" iff negative_count > positive_count and negative_count > 0,
and "neutral" otherwise (ties and all-zero counts included); the spec's
three examples evaluate as stated. -/
theorem claim5_keyword_rule :
    (∀ text : String,
      (analyze_sentiment_simple text = "positive" ↔
        countKw positive_keywords (text.data.map pyLower) >
          countKw negative_keywords (text.data.map pyLower) ∧
        countKw positive_keywords (text.data.map pyLower) > 0) ∧
      (analyze_sentiment_simple text = "negative" ↔
        countKw negative_keywords (text.data.map pyLower) >
          countKw positive_keywords (text.data.map pyLower) ∧
        countKw negative_keywords (text.data.map pyLower) > 0) ∧
      (analyze_sentiment_simple text = "neutral" ↔
        ¬(countKw positive_keywords (text.data.map pyLower) >
            countKw negative_keywords (text.data.map pyLower) ∧
          countKw positive_keywords (text.data.map pyLower) > 0) ∧
        ¬(countKw negative_keywords (text.data.map pyLower) >
            countKw positive_keywords (text.data.map pyLower) ∧
          countKw negative_keywords (text.data.map pyLower) > 0))) ∧
    analyze_sentiment_simple "excellent parfait satisfait" = "positive" ∧
    analyze_sentiment_simple "horrible catastrophique nul" = "negative" ∧
    analyze_sentiment_simple "le produit est arrivé" = "neutral" := by
  refine ⟨?_, by decide, by decide, by decide⟩
  intro text
  by_cases he : text.data = []
  · have hmap : text.data.map pyLower = [] := by rw [he]; rfl
    rw [hmap]
    have hp : countKw positive_keywords [] = 0 := by decide
    have hn : countKw negative_keywords [] = 0 := by decide
    rw [hp, hn]
    have hval : analyze_sentiment_simple text = "neutral" := by
      unfold analyze_sentiment_simple
      rw [if_pos he]
    rw [hval]
    decide
  · unfold analyze_sentiment_simple
    rw [if_neg he]
    set pc := countKw positive_keywords (text.data.map pyLower) with hpc
    set nc := countKw negative_keywords (text.data.map pyLower) with hnc
    by_cases h1 : pc > nc ∧ pc > 0
    · rw [if_pos h1]
      exact ⟨⟨fun _ => h1, fun _ => rfl⟩,
        ⟨fun hx => absurd hx (by decide), fun hx => False.elim (by omega)⟩,
        ⟨fun hx => absurd hx (by decide), fun hx => absurd h1 hx.1⟩⟩
    · rw [if_neg h1]
      by_cases h2 : nc > pc ∧ nc > 0
      · rw [if_pos h2]
        exact ⟨⟨fun hx => absurd hx (by decide), fun hx => absurd hx h1⟩,
          ⟨fun _ => h2, fun _ => rfl⟩,
          ⟨fun hx => absurd hx (by decide), fun hx => absurd h2 hx.2⟩⟩
      · rw [if_neg h2]
        exact ⟨⟨fun hx => absurd hx (by decide), fun hx => absurd hx h1⟩,
          ⟨fun hx => absurd hx (by decide), fun hx => absurd hx h2⟩,
          ⟨fun _ => ⟨h1, h2⟩, fun _ => rfl⟩⟩

set_option maxRecDepth 8192 in
/-- C6: in fallback mode, for each of the three sentiment labels and any
text (and any random draw `k`), `generate_fallback_response` returns one
of the 3 configured templates of that label, and the response has at
least 20 characters. -/
theorem claim6_fallback_templates (texte : String) (k : Nat) :
    (generate_fallback_response texte "positive" k ∈ ResponseTemplates.POSITIVE ∧
      20 ≤ (generate_fallback_response texte "positive" k).length) ∧
    (generate_fallback_response texte "negative" k ∈ ResponseTemplates.NEGATIVE ∧
      20 ≤ (generate_fallback_response texte "negative" k).length) ∧
    (generate_fallback_response texte "neutral" k ∈ ResponseTemplates.NEUTRAL ∧
      20 ≤ (generate_fallback_response texte "neutral" k).length) := by
  have hpos : generate_fallback_response texte "positive" k =
      pyChoice ResponseTemplates.POSITIVE k := by
    simp only [generate_fallback_response]
    rw [if_pos (show (positiveMarkers.any fun w =>
      containsSub (List.map pyLower ("positive" : String).data) w.data) = true by decide)]
  have hneg : generate_fallback_response texte "negative" k =
      pyChoice ResponseTemplates.NEGATIVE k := by
    simp only [generate_fallback_response]
    rw [if_neg (show ¬ (positiveMarkers.any fun w =>
      containsSub (List.map pyLower ("negative" : String).data) w.data) = true by decide)]
    rw [if_neg (show ¬ (neutralMarkers.any fun w =>
      containsSub (List.map pyLower ("negative" : String).data) w.data) = true by decide)]
  have hneu : generate_fallback_response texte "neutral" k =
      pyChoice ResponseTemplates.NEUTRAL k := by
    simp only [generate_fallback_response]
    rw [if_neg (show ¬ (positiveMarkers.any fun w =>
      containsSub (List.map pyLower ("neutral" : String).data) w.data) = true by decide)]
    rw [if_pos (show (neutralMarkers.any fun w =>
      containsSub (List.map pyLower ("neutral" : String).data) w.data) = true by decide)]
  have hlp : ∀ r ∈ ResponseTemplates.POSITIVE, 20 ≤ r.length := by decide
  have hln : ∀ r ∈ ResponseTemplates.NEGATIVE, 20 ≤ r.length := by decide
  have hlu : ∀ r ∈ ResponseTemplates.NEUTRAL, 20 ≤ r.length := by decide
  refine ⟨⟨?_, ?_⟩, ⟨?_, ?_⟩, ⟨?_, ?_⟩⟩
  · rw [hpos]; exact pyChoice_mem _ k (by decide)
  · rw [hpos]; exact hlp _ (pyChoice_mem _ k (by decide))
  · rw [hneg]; exact pyChoice_mem _ k (by decide)
  · rw [hneg]; exact hln _ (pyChoice_mem _ k (by decide))
  · rw [hneu]; exact pyChoice_mem _ k (by decide)
  · rw [hneu]; exact hlu _ (pyChoice_mem _ k (by decide))

/-- C7, counterexample: the claim says a generated text is accepted iff
its stripped length lies in the inclusive window [15, 300], but the code
tests `len(response) > 15 and len(response) < 300`, so a response of
exactly 15 characters is discarded and a fallback template returned. -/
theorem claim7_counterexample :
    (stripStr (pyDropChars "Avis client: aaaaaaaaaaaaaaa"
        (("Avis client: " ++ "") : String).length)).length = 15 ∧
    generate_ai_response
        { enable_ai_model := true, model_loaded := true, gen_pipe_loaded := true,
          generation := Except.ok "Avis client: aaaaaaaaaaaaaaa" } "" "x" 0 =
      generate_fallback_response "" "x" 0 ∧
    generate_ai_response
        { enable_ai_model := true, model_loaded := true, gen_pipe_loaded := true,
          generation := Except.ok "Avis client: aaaaaaaaaaaaaaa" } "" "x" 0 ≠
      stripStr (pyDropChars "Avis client: aaaaaaaaaaaaaaa"
        (("Avis client: " ++ "") : String).length) := by decide

/-- C7, amended: in model mode with a successful generation, the text
left after stripping the prompt prefix is accepted iff its length is
strictly between 15 and 300 (i.e. in the inclusive window [16, 299]);
otherwise a fallback template response is returned. -/
theorem claim7_length_window (env : AiEnv) (texte sentiment : String) (k : Nat)
    (gen : String) (hm : env.model_loaded = true)
    (hg : env.generation = Except.ok gen) :
    (15 < (stripStr (pyDropChars gen ("Avis client: " ++ texte).length)).length ∧
        (stripStr (pyDropChars gen ("Avis client: " ++ texte).length)).length < 300 →
      generate_ai_response env texte sentiment k =
        stripStr (pyDropChars gen ("Avis client: " ++ texte).length)) ∧
    (¬(15 < (stripStr (pyDropChars gen ("Avis client: " ++ texte).length)).length ∧
        (stripStr (pyDropChars gen ("Avis client: " ++ texte).length)).length < 300) →
      generate_ai_response env texte sentiment k =
        generate_fallback_response texte sentiment k) := by
  have hml : ¬ env.model_loaded = false := by rw [hm]; simp
  constructor
  · intro hc
    simp only [generate_ai_response, hg]
    rw [if_neg hml, if_pos hc]
  · intro hc
    simp only [generate_ai_response, hg]
    rw [if_neg hml, if_neg hc]

/-- C7, witness: a stripped response of 16 characters is accepted. -/
theorem claim7_witness :
    generate_ai_response
        { enable_ai_model := true, model_loaded := true, gen_pipe_loaded := true,
          generation := Except.ok "Avis client: aaaaaaaaaaaaaaaa" } "" "x" 0 =
      stripStr (pyDropChars "Avis client: aaaaaaaaaaaaaaaa"
        (("Avis client: " ++ "") : String).length) :=
  (claim7_length_window _ "" "x" 0 "Avis client: aaaaaaaaaaaaaaaa" rfl rfl).1
    (by decide)

/-- C8: when the model-mode generation raises (the generation outcome is
an exception), `generer_reponse` returns the fallback template response —
the exception never propagates, and `generer_reponse` is a total function
into strings by construction. -/
theorem claim8_exceptions_recovered (env : AiEnv) (texte sentiment : String)
    (k : Nat) (e : String) (hg : env.generation = Except.error e) :
    generer_reponse env texte sentiment k =
      generate_fallback_response texte sentiment k := by
  unfold generer_reponse
  split_ifs with hmode
  · simp only [generate_ai_response, hg]
    split_ifs with hml
    · rfl
    · rfl
  · rfl

/-- C8, witness: the theorem applied to a concrete failing generation. -/
theorem claim8_witness :
    generer_reponse
        { enable_ai_model := true, model_loaded := true, gen_pipe_loaded := true,
          generation := Except.error "boom" } "avis" "positive" 2 =
      generate_fallback_response "avis" "positive" 2 :=
  claim8_exceptions_recovered _ "avis" "positive" 2 "boom" rfl

/-- C9: the confidence field of the `/analyse` handler is "très élevée"
whenever a rating is provided (for every text), otherwise "faible" when
the cleaned text has fewer than 10 characters and "élevée" in all
remaining cases. -/
theorem claim9_confidence (env : AiEnv) (k : Nat) (texte : String) :
    (∀ r : Int, (analyser_avis env k texte (some r)).confiance = "très élevée") ∧
    ((clean_text texte).length < 10 →
      (analyser_avis env k texte none).confiance = "faible") ∧
    (¬(clean_text texte).length < 10 →
      (analyser_avis env k texte none).confiance = "élevée") := by
  refine ⟨fun r => rfl, fun h => ?_, fun h => ?_⟩
  · show (if (Option.none : Option Int).isSome = true then "très élevée"
      else if (clean_text texte).length < 10 then "faible"
      else "élevée") = "faible"
    rw [if_neg (by simp), if_pos h]
  · show (if (Option.none : Option Int).isSome = true then "très élevée"
      else if (clean_text texte).length < 10 then "faible"
      else "élevée") = "élevée"
    rw [if_neg (by simp), if_neg h]

/-- C9, witness: confidence is "très élevée" with a rating, and "faible"
for the one-character review "x" (whose cleaned text is empty). -/
theorem claim9_witness :
    (analyser_avis ⟨false, false, false, Except.error "nope"⟩ 0 "x"
      none).confiance = "faible" :=
  (claim9_confidence _ 0 "x").2.1 (by decide)

/-- C10, counterexample: the claim quantifies over sentiment strings that
contain none of the markers as substrings, but the code tests the markers
against `sentiment.lower()`: the sentiment "POSITIF" contains no marker
as a (case-sensitive) substring, yet the response is drawn from the
POSITIVE templates, not the NEGATIVE ones. -/
theorem claim10_counterexample :
    (positiveMarkers.any fun w => containsSub ("POSITIF" : String).data w.data) = false ∧
    (neutralMarkers.any fun w => containsSub ("POSITIF" : String).data w.data) = false ∧
    generate_fallback_response "" "POSITIF" 0 ∉ ResponseTemplates.NEGATIVE := by decide

/-- C10, amended: for every sentiment string whose lowercased form
contains none of the positive markers and none of the neutral markers as
a substring — including the empty string and arbitrary unknown labels —
`generate_fallback_response` returns one of the 3 NEGATIVE templates;
moreover `generer_reponse`'s sentiment parameter defaults to "negative"
when omitted. -/
theorem claim10_unknown_labels_negative :
    (∀ sentiment texte : String, ∀ k : Nat,
      (positiveMarkers.any fun w =>
        containsSub (sentiment.data.map pyLower) w.data) = false →
      (neutralMarkers.any fun w =>
        containsSub (sentiment.data.map pyLower) w.data) = false →
      generate_fallback_response texte sentiment k ∈ ResponseTemplates.NEGATIVE) ∧
    (∀ env : AiEnv, ∀ texte : String, ∀ k : Nat,
      generer_reponse_texte_only env texte k = generer_reponse env texte "negative" k) := by
  constructor
  · intro sentiment texte k h1 h2
    simp only [generate_fallback_response]
    rw [if_neg (by rw [h1]; simp), if_neg (by rw [h2]; simp)]
    exact pyChoice_mem _ k (by decide)
  · intro env texte k
    rfl

/-- C10, witness: the empty sentiment string falls to the NEGATIVE
templates. -/
theorem claim10_witness :
    generate_fallback_response "avis" "" 0 ∈ ResponseTemplates.NEGATIVE :=
  claim10_unknown_labels_negative.1 "" "avis" 0 (by decide) (by decide)
